import Mathlib

/-!
# pushgo: job distribution and response aggregation

A shallow embedding of `ios/service.go` and `android/service.go`.

* Channels are modelled by their traces: the list of values put on them, in order. A send
  on a full channel waits for room and then happens; the wait is not modelled.
* A goroutine is modelled by a function from what it receives to what it does.
* Go `int` counters that only count received outcomes are natural numbers: they start at 0,
  grow by one per outcome, and are compared with the length of a slice.
* `senderCount` is a Go `int` and may be zero or negative, so it is an integer here, and the
  division of `msgDistributor` is Go's truncating division, which panics on a zero divisor.
-/

set_option autoImplicit false

/-- Ceiling of `a / b` on natural numbers, for `0 < b`. -/
def divUp (a b : Nat) : Nat := (a + b - 1) / b

/-! ## Go maps -/

/-- A Go map, as the list of its entries; every key occurs at most once in a map built by
`GoMap.set` from the empty map. -/
abbrev GoMap (K V : Type) := List (K × V)

namespace GoMap

variable {K V : Type} [DecidableEq K]

/-- The lookup `v, ok := m[k]`. -/
def get? : GoMap K V → K → Option V
  | [], _ => none
  | (k', v) :: rest, k => if k' = k then some v else get? rest k

/-- The assignment `m[k] = v`. -/
def set : GoMap K V → K → V → GoMap K V
  | [], k, v => [(k, v)]
  | (k', v') :: rest, k, v => if k' = k then (k, v) :: rest else (k', v') :: set rest k v

/-- The values of a map of counters, added up. -/
def total (m : GoMap K Nat) : Nat := (m.map Prod.snd).sum

end GoMap

/-! ## Package push (github.com/RobotsAndPencils/buford/push), as far as the service uses it -/

namespace push

/-- An error value, compared by identity: the two reasons the service names, and any other. -/
inductive Reason where
  | ErrUnregistered
  | ErrDeviceTokenNotForTopic
  | other (ident : Nat)
  deriving DecidableEq, Repr

/-- What the field `Err` of a `push.Response` holds when it is not nil: a `*push.Error` with
its field `Reason`, or an error value of any other dynamic type (which may be one of the
reason values itself). -/
inductive ResponseErr where
  | pushError (Reason : Reason)
  | plain (err : Reason)
  deriving DecidableEq, Repr

/-- The type `push.Response`: the outcome of the delivery to one device token. -/
structure Response where
  DeviceToken : String
  ID : String
  Err : Option ResponseErr
  deriving DecidableEq, Repr

/-- The type `push.Headers`, with the fields `msgDistributor` sets. -/
structure Headers where
  Topic : String
  Expiration : Int
  LowPriority : Bool
  deriving DecidableEq, Repr

end push

/-! ## Package core -/

namespace core

/-- Modelled from the spec: the declaration of `core.Message` is not among the sources; the
fields are the ones `ios/service.go` reads and writes. `V` is the type of the values of
`Custom`, `X` the type of the pass-through value `Extra`. -/
structure Message (V X : Type) where
  Devices : List String
  Alert : String
  Sound : String
  Custom : GoMap String V
  Priority : Int
  Expiration : Int
  Extra : X
  Bytes : List Nat

/-- Modelled from the spec: the declaration of `core.Result` is not among the sources; the
fields are the ones `msgDistributor` sets on the zero value. -/
structure Result where
  Typ : Int
  RegistrationID : String
  deriving DecidableEq, Repr

/-- Modelled from the spec: the declaration of `core.Response` is not among the sources; it
is the aggregated result, with the fields `msgDistributor` uses. -/
structure Response (X : Type) where
  Extra : X
  ReasonMap : GoMap push.Reason Nat
  Total : Nat
  Success : Nat
  Failure : Nat
  Results : List Result
  deriving DecidableEq, Repr

/-- Modelled from the spec: the constants `core.PriorityNormal` and
`core.ResponseTypeDeviceExpired`, whose declarations are not among the sources. -/
structure Consts where
  PriorityNormal : Int
  ResponseTypeDeviceExpired : Int

/-- Consecutive groups of `g` elements cut from the front of a list, at most `fuel` of them. -/
def groupAux {α : Type} (g : Nat) : Nat → List α → List (List α)
  | 0, _ => []
  | _ + 1, [] => []
  | fuel + 1, d :: ds => (d :: ds).take g :: groupAux g fuel ((d :: ds).drop g)

/-- Modelled from the spec: `DeviceList.Group` of package core is not among the sources. The
spec: "partition tokens into consecutive groups of at most `g` tokens (last group may be
smaller)". The spec describes positive group sizes only; for any other size the model yields
no group. -/
def DeviceList.Group (dl : List String) (groupSize : Int) : List (List String) :=
  if groupSize ≤ 0 then [] else groupAux groupSize.toNat dl.length dl

end core

/-! ## Package ios -/

namespace ios

/-- The type `Service`, without its certificate and its two channels. -/
structure Service where
  bundleID : String
  senderCount : Int
  isProduction : Bool

/-- The type `message`: one work unit. `respCh` names the private response channel. -/
structure message where
  payload : List Nat
  devices : List String
  headers : push.Headers
  respCh : Nat
  deriving DecidableEq, Repr

/-- The library calls of `Queue`: `payload.APS.Map` on the alert body and the sound, and
`json.Marshal`, which yields `none` when it returns an error. -/
structure Encoder (V : Type) where
  apsMap : String → String → GoMap String V
  jsonMarshal : GoMap String V → Option (List Nat)

/-- How a run of `Queue` and of the goroutine it starts ends. -/
inductive Status where
  | dropped
  | panicked
  | waiting
  | returned
  deriving DecidableEq, Repr

/-- What a request does: the work units put on `s.msgQueue`, the results put on `s.respCh`,
the number of outcomes read from the private channel, and the accumulator `sr`. -/
structure Run (X : Type) where
  queued : List message
  published : List (core.Response X)
  consumed : Nat
  sr : core.Response X
  status : Status

/-- The map `pm` of `Queue`: the APS map with every entry of `msg.Custom` assigned into it. -/
def payloadMap {V X : Type} (enc : Encoder V) (msg : core.Message V X) : GoMap String V :=
  msg.Custom.foldl (fun pm kv => GoMap.set pm kv.1 kv.2) (enc.apsMap msg.Alert msg.Sound)

/-- The statement `groupSize := (len(msg.Devices) / s.senderCount) + 1`; `none` is the
panic of an integer division by zero. -/
def groupSize (s : Service) (devices : List String) : Option Int :=
  if s.senderCount = 0 then none
  else some (Int.tdiv (devices.length : Int) s.senderCount + 1)

/-- The value `sr` that `msgDistributor` starts from. -/
def newResponse {X : Type} (extra : X) : core.Response X :=
  { Extra := extra, ReasonMap := [], Total := 0, Success := 0, Failure := 0, Results := [] }

/-- The headers `h` of `msgDistributor`; `now` is `time.Now()` in nanoseconds. -/
def headers {V X : Type} (c : core.Consts) (s : Service) (msg : core.Message V X) (now : Int) :
    push.Headers :=
  { Topic := s.bundleID
    Expiration := now + 1000000000 * msg.Expiration
    LowPriority := if msg.Priority = c.PriorityNormal then true else false }

/-- The work units of the loop over `deviceGroups`, in the order they are put on the queue. -/
def workUnits (payload : List Nat) (h : push.Headers) (respCh : Nat)
    (deviceGroups : List (List String)) : List message :=
  deviceGroups.map (fun g => { payload := payload, devices := g, headers := h, respCh := respCh })

/-- The body of `case iosResp := <-respCh`, up to the test on `sr.Total`. -/
def record {X : Type} (c : core.Consts) (sr : core.Response X) (iosResp : push.Response) :
    core.Response X :=
  let sr := { sr with Total := sr.Total + 1 }
  match iosResp.Err with
  | some x =>
    let e : Bool := match x with
      | .pushError _ => true
      | .plain _ => false
    let err : push.Reason := match x with
      | .pushError r => r
      | .plain v => v
    let sr := { sr with Failure := sr.Failure + 1 }
    let sr := match GoMap.get? sr.ReasonMap err with
      | some count => { sr with ReasonMap := GoMap.set sr.ReasonMap err (count + 1) }
      | none => { sr with ReasonMap := GoMap.set sr.ReasonMap err 1 }
    if e && (err = push.Reason.ErrUnregistered || err = push.Reason.ErrDeviceTokenNotForTopic) then
      { sr with Results := sr.Results ++
          [{ Typ := c.ResponseTypeDeviceExpired, RegistrationID := iosResp.DeviceToken }] }
    else sr
  | none => { sr with Success := sr.Success + 1 }

/-- The receive loop of `msgDistributor` on the outcomes that arrive on the private channel,
in arrival order: it publishes and returns when `sr.Total == len(msg.Devices)`, and waits on
the channel when the outcomes are used up. -/
def receive {X : Type} (c : core.Consts) (n : Nat) (queued : List message) :
    core.Response X → Nat → List push.Response → Run X
  | sr, k, [] => { queued := queued, published := [], consumed := k, sr := sr, status := .waiting }
  | sr, k, iosResp :: rest =>
    let sr := record c sr iosResp
    if sr.Total = n then
      { queued := queued, published := [sr], consumed := k + 1, sr := sr, status := .returned }
    else receive c n queued sr (k + 1) rest

/-- The goroutine `msgDistributor` on the outcomes `os` arriving on its private channel. -/
def msgDistributor {V X : Type} (c : core.Consts) (s : Service) (msg : core.Message V X)
    (now : Int) (respCh : Nat) (os : List push.Response) : Run X :=
  let sr := newResponse msg.Extra
  let h := headers c s msg now
  match groupSize s msg.Devices with
  | none => { queued := [], published := [], consumed := 0, sr := sr, status := .panicked }
  | some g =>
    let deviceGroups := core.DeviceList.Group msg.Devices g
    receive c msg.Devices.length (workUnits msg.Bytes h respCh deviceGroups) sr 0 os

/-- The method `Queue` together with the goroutine it starts: a payload that cannot be
encoded is logged and the request dropped. -/
def Queue {V X : Type} (enc : Encoder V) (c : core.Consts) (s : Service)
    (msg : core.Message V X) (now : Int) (respCh : Nat) (os : List push.Response) : Run X :=
  match enc.jsonMarshal (payloadMap enc msg) with
  | none =>
    { queued := [], published := [], consumed := 0, sr := newResponse msg.Extra,
      status := .dropped }
  | some b => msgDistributor c s { msg with Bytes := b } now respCh os

end ios

/-! ## Package gcm (github.com/omerkirk/gcm), as far as the service uses it -/

namespace gcm

/-- The type `gcm.Message`: the field `DryRun`, and all its other fields as one value. -/
structure Message (α : Type) where
  DryRun : Bool
  rest : α
  deriving DecidableEq, Repr

end gcm

/-! ## Package android -/

namespace android

/-- The type `Service`, without its client and its two channels. -/
structure Service where
  senderCount : Int
  retryCount : Int
  isProduction : Bool

/-- The calls of `sender`: the library call `gcmClient.Send`, which may answer differently
from one call to the next and is therefore given the number of earlier calls, and
`NewServiceResponse`, whose declaration is not among the sources. -/
structure Client (α R E P : Type) where
  Send : Nat → gcm.Message α → Int → Except E R
  NewServiceResponse : R → gcm.Message α → P

/-- The state the service works on. Messages are handled through pointers: `heap` gives the
message at an address, `msgQueue` holds the addresses waiting in `s.msgQueue`, oldest first.
`respCh` is the trace of `s.respCh`, `sends` the calls of `gcmClient.Send` (address of the
message and retry count), `logged` the errors printed. -/
structure World (α E P : Type) where
  heap : Nat → gcm.Message α
  msgQueue : List Nat
  respCh : List P
  sends : List (Nat × Int)
  logged : List E

/-- The method `Queue` on the message at address `msg`. -/
def Queue {α E P : Type} (s : Service) (msg : Nat) (w : World α E P) : World α E P :=
  let m := w.heap msg
  let m := if s.isProduction then { m with DryRun := false } else { m with DryRun := true }
  { w with
    heap := fun a => if a = msg then m else w.heap a
    msgQueue := w.msgQueue ++ [msg] }

/-- One round of the loop of `sender`; on an empty queue the worker waits. -/
def senderStep {α R E P : Type} (cl : Client α R E P) (s : Service) (w : World α E P) :
    World α E P :=
  match w.msgQueue with
  | [] => w
  | msg :: queue =>
    let w1 := { w with msgQueue := queue, sends := w.sends ++ [(msg, s.retryCount)] }
    match cl.Send w.sends.length (w.heap msg) s.retryCount with
    | .error err => { w1 with logged := w1.logged ++ [err] }
    | .ok resp => { w1 with respCh := w1.respCh ++ [cl.NewServiceResponse resp (w.heap msg)] }

/-- The first `rounds` rounds of the loop of `sender`. -/
def sender {α R E P : Type} (cl : Client α R E P) (s : Service) :
    Nat → World α E P → World α E P
  | 0, w => w
  | rounds + 1, w => sender cl s rounds (senderStep cl s w)

end android

/-! ## Sample data -/

namespace ios

/-- The device groups of the work units a run put on the message queue, in order. -/
def Run.groups {X : Type} (r : Run X) : List (List String) := r.queued.map message.devices

/-- The accumulator after the outcomes `os` have all been recorded, one after the other. -/
def recordAll {X : Type} (c : core.Consts) (sr : core.Response X) (os : List push.Response) :
    core.Response X :=
  os.foldl (record c) sr

/-- The classified reason of a provider error: the value `err` that `msgDistributor` counts
in `sr.ReasonMap`. -/
def classify : push.ResponseErr → push.Reason
  | .pushError r => r
  | .plain v => v

/-- The two reasons that say a device token is no longer valid. -/
def tokenInvalid (r : push.Reason) : Bool :=
  r = push.Reason.ErrUnregistered || r = push.Reason.ErrDeviceTokenNotForTopic

/-- Sample constants. -/
def sampleConsts : core.Consts := { PriorityNormal := 5, ResponseTypeDeviceExpired := 1 }

/-- A sample encoder: `json.Marshal` fails on a map that holds the value 0. -/
def sampleEncoder : Encoder Nat :=
  { apsMap := fun _ _ => [("aps", 1)]
    jsonMarshal := fun pm => if pm.any (fun kv => kv.2 = 0) then none else some [123, 125] }

/-- A sample service with a pool of two senders. -/
def pool2 : Service := { bundleID := "b", senderCount := 2, isProduction := false }

/-- A sample request to the given device tokens. -/
def request (devices : List String) : core.Message Nat Nat :=
  { Devices := devices, Alert := "hi", Sound := "", Custom := [], Priority := 10,
    Expiration := 60, Extra := 7, Bytes := [] }

end ios

namespace android

/-- A sample service. -/
def sandbox : Service := { senderCount := 1, retryCount := 3, isProduction := false }

/-- A sample client: the send fails for a message whose other fields are 0. -/
def sampleClient : Client Nat Nat String (Nat × Bool) :=
  { Send := fun _ m _ => if m.rest = 0 then .error "unavailable" else .ok (m.rest + 100)
    NewServiceResponse := fun resp m => (resp, m.DryRun) }

/-- A sample state: the messages at the addresses 0 and 1 wait in the queue. -/
def sampleWorld : World Nat String (Nat × Bool) :=
  { heap := fun a => { DryRun := true, rest := a }
    msgQueue := [0, 1], respCh := [], sends := [], logged := [] }

end android

/-! ## The batch splitter -/

theorem divUp_le_iff (a b k : Nat) (hb : 0 < b) : divUp a b ≤ k ↔ a ≤ k * b := by
  unfold divUp
  rw [← Nat.lt_succ_iff, Nat.div_lt_iff_lt_mul hb, Nat.succ_mul]
  omega

theorem divUp_zero (b : Nat) (hb : 0 < b) : divUp 0 b = 0 := by
  have h := (divUp_le_iff 0 b 0 hb).2 (by simp)
  omega

theorem divUp_pos (n g : Nat) (hg : 0 < g) (hn : 0 < n) : 1 ≤ divUp n g := by
  by_contra h
  have h1 : divUp n g ≤ 0 := by omega
  rw [divUp_le_iff _ _ _ hg] at h1
  omega

theorem divUp_step (n g : Nat) (hg : 0 < g) (hn : 0 < n) :
    divUp n g = divUp (n - g) g + 1 := by
  apply le_antisymm
  · rw [divUp_le_iff _ _ _ hg, Nat.succ_mul]
    have h := (divUp_le_iff (n - g) g _ hg).1 le_rfl
    omega
  · have hpos := divUp_pos n g hg hn
    have hle := (divUp_le_iff n g _ hg).1 le_rfl
    obtain ⟨k, hk⟩ : ∃ k, divUp n g = k + 1 := ⟨divUp n g - 1, by omega⟩
    rw [hk] at hle ⊢
    rw [Nat.succ_mul] at hle
    have h : divUp (n - g) g ≤ k := (divUp_le_iff _ _ _ hg).2 (by omega)
    omega

namespace core

theorem groupAux_flatten {α : Type} (g : Nat) (hg : 0 < g) :
    ∀ (fuel : Nat) (l : List α), l.length ≤ fuel → (groupAux g fuel l).flatten = l
  | 0, l, h => by
    have : l = [] := List.length_eq_zero.1 (by omega)
    subst this
    rfl
  | fuel + 1, [], _ => rfl
  | fuel + 1, d :: ds, h => by
    have hlen : ((d :: ds).drop g).length ≤ fuel := by
      rw [List.length_drop]
      simp only [List.length_cons] at h ⊢
      omega
    simp only [groupAux, List.flatten_cons, groupAux_flatten g hg fuel _ hlen,
      List.take_append_drop]

theorem groupAux_length {α : Type} (g : Nat) (hg : 0 < g) :
    ∀ (fuel : Nat) (l : List α), l.length ≤ fuel →
      (groupAux g fuel l).length = divUp l.length g
  | 0, l, h => by
    have : l = [] := List.length_eq_zero.1 (by omega)
    subst this
    simp [groupAux, divUp_zero g hg]
  | fuel + 1, [], _ => by simp [groupAux, divUp_zero g hg]
  | fuel + 1, d :: ds, h => by
    have hlen : ((d :: ds).drop g).length ≤ fuel := by
      rw [List.length_drop]
      simp only [List.length_cons] at h ⊢
      omega
    rw [groupAux, List.length_cons, groupAux_length g hg fuel _ hlen, List.length_drop,
      divUp_step (d :: ds).length g hg (by simp)]

theorem groupAux_mem {α : Type} (g : Nat) (hg : 0 < g) :
    ∀ (fuel : Nat) (l : List α), ∀ x ∈ groupAux g fuel l, 1 ≤ x.length ∧ x.length ≤ g
  | 0, l, x, hx => by simp [groupAux] at hx
  | fuel + 1, [], x, hx => by simp [groupAux] at hx
  | fuel + 1, d :: ds, x, hx => by
    rw [groupAux, List.mem_cons] at hx
    rcases hx with rfl | hx
    · rw [List.length_take]
      simp only [List.length_cons]
      omega
    · exact groupAux_mem g hg fuel _ x hx

end core

theorem divUp_eq_ceil (a b : Nat) (hb : 0 < b) : divUp a b = ⌈(a : ℚ) / (b : ℚ)⌉₊ := by
  have hb' : (0 : ℚ) < (b : ℚ) := by exact_mod_cast hb
  apply le_antisymm
  · rw [divUp_le_iff _ _ _ hb]
    have h := Nat.le_ceil ((a : ℚ) / (b : ℚ))
    rw [div_le_iff₀ hb'] at h
    exact_mod_cast h
  · rw [Nat.ceil_le, div_le_iff₀ hb']
    have h := (divUp_le_iff a b _ hb).1 le_rfl
    exact_mod_cast h

namespace core

theorem groupAux_getElem? {α : Type} (g : Nat) (hg : 0 < g) :
    ∀ (fuel : Nat) (l : List α) (j : Nat), l.length ≤ fuel → j < divUp l.length g →
      (groupAux g fuel l)[j]? = some ((l.drop (j * g)).take g)
  | 0, l, j, h, hj => by
    have : l = [] := List.length_eq_zero.1 (by omega)
    subst this
    simp [divUp_zero g hg] at hj
  | fuel + 1, [], j, _, hj => by simp [divUp_zero g hg] at hj
  | fuel + 1, d :: ds, 0, _, _ => by simp [groupAux]
  | fuel + 1, d :: ds, j + 1, h, hj => by
    have hlen : ((d :: ds).drop g).length ≤ fuel := by
      rw [List.length_drop]
      simp only [List.length_cons] at h ⊢
      omega
    have hj' : j < divUp ((d :: ds).drop g).length g := by
      rw [divUp_step (d :: ds).length g hg (by simp)] at hj
      rw [List.length_drop]
      omega
    rw [groupAux, List.getElem?_cons_succ, groupAux_getElem? g hg fuel _ j hlen hj',
      List.drop_drop, Nat.succ_mul]
    congr 3
    omega

theorem Group_pos (dl : List String) (g : Nat) (hg : 0 < g) :
    DeviceList.Group dl (g : Int) = groupAux g dl.length dl := by
  unfold DeviceList.Group
  rw [if_neg (by omega), Int.toNat_ofNat]

end core

namespace ios

theorem groupSize_pos (s : Service) (devices : List String) (hS : 1 ≤ s.senderCount) :
    groupSize s devices = some ((devices.length / s.senderCount.toNat + 1 : Nat) : Int) := by
  obtain ⟨S, hSe⟩ : ∃ S : Nat, s.senderCount = (S : Int) := ⟨s.senderCount.toNat, by omega⟩
  unfold groupSize
  rw [if_neg (by omega), hSe, Int.toNat_ofNat, ← Int.ofNat_tdiv]
  rfl

theorem receive_queued {X : Type} (c : core.Consts) (n : Nat) (queued : List message) :
    ∀ (os : List push.Response) (sr : core.Response X) (k : Nat),
      (receive c n queued sr k os).queued = queued
  | [], _, _ => rfl
  | iosResp :: rest, sr, k => by
    unfold receive
    dsimp only
    split
    · rfl
    · exact receive_queued c n queued rest _ _

theorem msgDistributor_queued {V X : Type} (c : core.Consts) (s : Service)
    (msg : core.Message V X) (now : Int) (respCh : Nat) (os : List push.Response)
    (hS : 1 ≤ s.senderCount) :
    (msgDistributor c s msg now respCh os).queued =
      workUnits msg.Bytes (headers c s msg now) respCh
        (core.groupAux (msg.Devices.length / s.senderCount.toNat + 1) msg.Devices.length
          msg.Devices) := by
  unfold msgDistributor
  simp only [groupSize_pos s msg.Devices hS, receive_queued]
  rw [core.Group_pos _ _ (Nat.succ_pos _)]

theorem pool_bound (N S : Nat) (hS : 0 < S) : divUp N (N / S + 1) ≤ S := by
  rw [divUp_le_iff _ _ _ (Nat.succ_pos _), Nat.mul_succ]
  have h := Nat.div_add_mod N S
  have h2 := Nat.mod_lt N hS
  omega

/-- Claim C1. For a request with `N` device tokens (`N >= 1`, and `N = 0` as well) and a
pool of `S >= 1` senders, the group size of `msgDistributor` is `g = N / S + 1 >= 1`,
grouping the tokens by `g` gives `ceil(N / g)` groups, that number is at most `S`, and so at
most `S` work units are put on the message queue. -/
theorem C1_groups_at_most_pool {V X : Type} (c : core.Consts) (s : Service)
    (msg : core.Message V X) (now : Int) (respCh : Nat) (os : List push.Response)
    (hS : 1 ≤ s.senderCount) :
    ∃ g : Nat, groupSize s msg.Devices = some (g : Int) ∧
      g = msg.Devices.length / s.senderCount.toNat + 1 ∧ 1 ≤ g ∧
      (core.DeviceList.Group msg.Devices g).length = divUp msg.Devices.length g ∧
      divUp msg.Devices.length g ≤ s.senderCount.toNat ∧
      ((msgDistributor c s msg now respCh os).queued.length : Int) ≤ s.senderCount := by
  have hg : 0 < msg.Devices.length / s.senderCount.toNat + 1 := Nat.succ_pos _
  have hb := pool_bound msg.Devices.length s.senderCount.toNat (by omega)
  have hl := core.groupAux_length _ hg msg.Devices.length msg.Devices le_rfl
  refine ⟨_, groupSize_pos s msg.Devices hS, rfl, hg, ?_, hb, ?_⟩
  · rw [core.Group_pos _ _ hg, hl]
  · rw [msgDistributor_queued c s msg now respCh os hS, workUnits, List.length_map, hl]
    omega

/-- Claim C1 at 5 tokens and a pool of 2: the group size is 3 and there are 2 groups. -/
theorem C1_groups_at_most_pool_witness :
    (1 ≤ pool2.senderCount ∧
      groupSize pool2 (request ["a", "b", "c", "d", "e"]).Devices = some 3 ∧
      (core.DeviceList.Group (request ["a", "b", "c", "d", "e"]).Devices 3).length = 2) ∧
    ∃ g : Nat, groupSize pool2 (request ["a", "b", "c", "d", "e"]).Devices = some (g : Int) ∧
      g = (request ["a", "b", "c", "d", "e"]).Devices.length / pool2.senderCount.toNat + 1 ∧
      1 ≤ g ∧
      (core.DeviceList.Group (request ["a", "b", "c", "d", "e"]).Devices g).length =
        divUp (request ["a", "b", "c", "d", "e"]).Devices.length g ∧
      divUp (request ["a", "b", "c", "d", "e"]).Devices.length g ≤ pool2.senderCount.toNat ∧
      ((msgDistributor sampleConsts pool2 (request ["a", "b", "c", "d", "e"]) 0 1
        []).queued.length : Int) ≤ pool2.senderCount :=
  ⟨⟨by decide, by decide, by decide⟩,
    C1_groups_at_most_pool sampleConsts pool2 (request ["a", "b", "c", "d", "e"]) 0 1 []
      (by decide)⟩

theorem groups_eq {V X : Type} (c : core.Consts) (s : Service)
    (msg : core.Message V X) (now : Int) (respCh : Nat) (os : List push.Response)
    (hS : 1 ≤ s.senderCount) :
    (msgDistributor c s msg now respCh os).groups =
      core.groupAux (msg.Devices.length / s.senderCount.toNat + 1) msg.Devices.length
        msg.Devices := by
  rw [Run.groups, msgDistributor_queued c s msg now respCh os hS, workUnits, List.map_map]
  exact List.map_id _

/-- Claim C6. For a request with `N` device tokens and a pool of `S >= 1` senders, the work
units put on the message queue partition the device list: with `g = N / S + 1`, the device
groups concatenated in submission order are the device list, every group has between 1 and
`g` tokens, the sizes add up to `N`, the group number `j` is the slice of the positions from
`j * g` up to `j * g + g`, and the position `i` lies in the range of the group `i / g` and of
no other group. -/
theorem C6_work_units_partition_devices {V X : Type} (c : core.Consts) (s : Service)
    (msg : core.Message V X) (now : Int) (respCh : Nat) (os : List push.Response)
    (hS : 1 ≤ s.senderCount) :
    ∃ g : Nat, groupSize s msg.Devices = some (g : Int) ∧
      g = msg.Devices.length / s.senderCount.toNat + 1 ∧
      (msgDistributor c s msg now respCh os).groups.flatten = msg.Devices ∧
      (∀ d ∈ (msgDistributor c s msg now respCh os).groups, 1 ≤ d.length ∧ d.length ≤ g) ∧
      (((msgDistributor c s msg now respCh os).groups).map List.length).sum =
        msg.Devices.length ∧
      (∀ j, j < (msgDistributor c s msg now respCh os).groups.length →
        (msgDistributor c s msg now respCh os).groups[j]? =
          some ((msg.Devices.drop (j * g)).take g)) ∧
      (∀ i, i < msg.Devices.length →
        i / g < (msgDistributor c s msg now respCh os).groups.length ∧
        ∀ j d, (msgDistributor c s msg now respCh os).groups[j]? = some d →
          ((j * g ≤ i ∧ i < j * g + d.length) ↔ j = i / g)) := by
  have hg : 0 < msg.Devices.length / s.senderCount.toNat + 1 := Nat.succ_pos _
  have hfl := core.groupAux_flatten _ hg msg.Devices.length msg.Devices le_rfl
  have hlen := core.groupAux_length _ hg msg.Devices.length msg.Devices le_rfl
  have hget := fun j => core.groupAux_getElem? _ hg msg.Devices.length msg.Devices j le_rfl
  refine ⟨_, groupSize_pos s msg.Devices hS, rfl, ?_⟩
  rw [groups_eq c s msg now respCh os hS]
  generalize msg.Devices.length / s.senderCount.toNat + 1 = g at hg hfl hlen hget
  refine ⟨hfl, core.groupAux_mem g hg _ _, ?_, ?_, ?_⟩
  · rw [← List.length_flatten, hfl]
  · intro j hj
    exact hget j (hlen ▸ hj)
  · intro i hi
    have hdiv : i / g < divUp msg.Devices.length g := by
      by_contra hc
      have h1 := (divUp_le_iff _ _ _ hg).1 (Nat.le_of_not_lt hc)
      have h2 := Nat.div_mul_le_self i g
      omega
    refine ⟨hlen ▸ hdiv, ?_⟩
    intro j d hd
    have hj : j < divUp msg.Devices.length g := by
      rw [← hlen]
      by_contra hc
      rw [List.getElem?_eq_none (Nat.le_of_not_lt hc)] at hd
      exact Option.noConfusion hd
    rw [hget j hj] at hd
    have hd' : d.length = min g (msg.Devices.length - j * g) := by
      rw [← Option.some.inj hd, List.length_take, List.length_drop]
    constructor
    · rintro ⟨h1, h2⟩
      refine (Nat.div_eq_of_lt_le h1 ?_).symm
      rw [Nat.succ_mul]
      omega
    · intro hje
      have h1 := Nat.div_add_mod i g
      have h2 := Nat.mod_lt i hg
      rw [Nat.mul_comm] at h1
      subst hje
      omega

/-- Claim C6 at 5 tokens and a pool of 2: the groups have the sizes 3 and 2. -/
theorem C6_work_units_partition_devices_witness :
    (1 ≤ pool2.senderCount ∧
      (msgDistributor sampleConsts pool2 (request ["a", "b", "c", "d", "e"]) 0 1 []).groups =
        [["a", "b", "c"], ["d", "e"]]) ∧
    ∃ g : Nat, groupSize pool2 (request ["a", "b", "c", "d", "e"]).Devices = some (g : Int) ∧
      g = (request ["a", "b", "c", "d", "e"]).Devices.length / pool2.senderCount.toNat + 1 ∧
      (msgDistributor sampleConsts pool2 (request ["a", "b", "c", "d", "e"]) 0 1
        []).groups.flatten = (request ["a", "b", "c", "d", "e"]).Devices ∧
      (∀ d ∈ (msgDistributor sampleConsts pool2 (request ["a", "b", "c", "d", "e"]) 0 1
        []).groups, 1 ≤ d.length ∧ d.length ≤ g) ∧
      (((msgDistributor sampleConsts pool2 (request ["a", "b", "c", "d", "e"]) 0 1
        []).groups).map List.length).sum = (request ["a", "b", "c", "d", "e"]).Devices.length ∧
      (∀ j, j < (msgDistributor sampleConsts pool2 (request ["a", "b", "c", "d", "e"]) 0 1
          []).groups.length →
        (msgDistributor sampleConsts pool2 (request ["a", "b", "c", "d", "e"]) 0 1
          []).groups[j]? =
          some (((request ["a", "b", "c", "d", "e"]).Devices.drop (j * g)).take g)) ∧
      (∀ i, i < (request ["a", "b", "c", "d", "e"]).Devices.length →
        i / g < (msgDistributor sampleConsts pool2 (request ["a", "b", "c", "d", "e"]) 0 1
          []).groups.length ∧
        ∀ j d, (msgDistributor sampleConsts pool2 (request ["a", "b", "c", "d", "e"]) 0 1
            []).groups[j]? = some d →
          ((j * g ≤ i ∧ i < j * g + d.length) ↔ j = i / g)) :=
  ⟨⟨by decide, by decide⟩,
    C6_work_units_partition_devices sampleConsts pool2 (request ["a", "b", "c", "d", "e"]) 0 1 []
      (by decide)⟩

/-- Claim C7, as stated, fails: for 4 tokens and a pool of 2 the group size is 3, while
`ceil(4 / 2)` is 2. -/
theorem C7_group_size_is_not_ceil :
    groupSize pool2 (request ["a", "b", "c", "d"]).Devices = some 3 ∧
      divUp (request ["a", "b", "c", "d"]).Devices.length pool2.senderCount.toNat = 2 ∧
      groupSize pool2 (request ["a", "b", "c", "d"]).Devices ≠
        some ((divUp (request ["a", "b", "c", "d"]).Devices.length pool2.senderCount.toNat :
          Nat) : Int) := by
  decide

/-- Claim C7, amended. For a request with `N >= 1` device tokens and a pool of `S >= 1`
senders the group size is `floor(N / S) + 1`: that is `ceil(N / S)` when `S` does not divide
`N`, and `ceil(N / S) + 1` when it does. -/
theorem C7_group_size_floor_plus_one (s : Service) (devices : List String)
    (hS : 1 ≤ s.senderCount) (hN : 1 ≤ devices.length) :
    groupSize s devices = some ((devices.length / s.senderCount.toNat + 1 : Nat) : Int) ∧
      (¬ s.senderCount.toNat ∣ devices.length →
        devices.length / s.senderCount.toNat + 1 = divUp devices.length s.senderCount.toNat) ∧
      (s.senderCount.toNat ∣ devices.length →
        devices.length / s.senderCount.toNat + 1 =
          divUp devices.length s.senderCount.toNat + 1) := by
  refine ⟨groupSize_pos s devices hS, ?_, ?_⟩
  all_goals
    generalize devices.length = N at hN
    generalize hSn : s.senderCount.toNat = S
    have hSp : 0 < S := by omega
    have h1 := Nat.div_add_mod N S
    have h2 := Nat.mod_lt N hSp
    intro hd
  · have h3 : N % S ≠ 0 := fun h => hd (Nat.dvd_of_mod_eq_zero h)
    apply le_antisymm
    · by_contra hc
      have h4 : divUp N S ≤ N / S := by omega
      rw [divUp_le_iff _ _ _ hSp, Nat.mul_comm] at h4
      omega
    · rw [divUp_le_iff _ _ _ hSp, Nat.succ_mul, Nat.mul_comm]
      omega
  · have h3 : N % S = 0 := Nat.mod_eq_zero_of_dvd hd
    congr 1
    apply le_antisymm
    · by_contra hc
      have h4 : divUp N S ≤ N / S - 1 := by omega
      have h5 : 1 ≤ N / S := by
        by_contra h6
        have h7 : N / S = 0 := by omega
        rw [h7] at h1
        omega
      obtain ⟨k, hk⟩ : ∃ k, N / S = k + 1 := ⟨N / S - 1, by omega⟩
      rw [hk] at h4 h1
      rw [divUp_le_iff _ _ _ hSp] at h4
      rw [Nat.mul_succ, Nat.mul_comm] at h1
      simp only [Nat.add_sub_cancel] at h4
      omega
    · rw [divUp_le_iff _ _ _ hSp, Nat.mul_comm]
      omega

/-- Claim C7, amended, at 4 tokens and a pool of 2. -/
theorem C7_group_size_floor_plus_one_witness :
    (1 ≤ pool2.senderCount ∧ 1 ≤ ["a", "b", "c", "d"].length) ∧
    (groupSize pool2 ["a", "b", "c", "d"] =
        some ((["a", "b", "c", "d"].length / pool2.senderCount.toNat + 1 : Nat) : Int) ∧
      (¬ pool2.senderCount.toNat ∣ ["a", "b", "c", "d"].length →
        ["a", "b", "c", "d"].length / pool2.senderCount.toNat + 1 =
          divUp ["a", "b", "c", "d"].length pool2.senderCount.toNat) ∧
      (pool2.senderCount.toNat ∣ ["a", "b", "c", "d"].length →
        ["a", "b", "c", "d"].length / pool2.senderCount.toNat + 1 =
          divUp ["a", "b", "c", "d"].length pool2.senderCount.toNat + 1)) :=
  ⟨⟨by decide, by decide⟩,
    C7_group_size_floor_plus_one pool2 ["a", "b", "c", "d"] (by decide) (by decide)⟩

end ios

/-! ## The response aggregator -/

namespace GoMap

variable {K : Type} [DecidableEq K]

theorem total_set_of_get?_some (k : K) (w : Nat) :
    ∀ (m : GoMap K Nat) (v : Nat), get? m k = some v → total (set m k w) + v = total m + w
  | [], v, h => by simp [get?] at h
  | (k', v') :: rest, v, h => by
    unfold get? at h
    unfold set
    by_cases hk : k' = k
    · rw [if_pos hk] at h ⊢
      have hv : v' = v := Option.some.inj h
      simp only [total, List.map_cons, List.sum_cons]
      omega
    · rw [if_neg hk] at h ⊢
      have ih := total_set_of_get?_some k w rest v h
      simp only [total, List.map_cons, List.sum_cons] at ih ⊢
      omega

theorem total_set_of_get?_none (k : K) (w : Nat) :
    ∀ (m : GoMap K Nat), get? m k = none → total (set m k w) = total m + w
  | [], _ => by simp [set, total]
  | (k', v') :: rest, h => by
    unfold get? at h
    unfold set
    by_cases hk : k' = k
    · rw [if_pos hk] at h
      exact Option.noConfusion h
    · rw [if_neg hk] at h ⊢
      have ih := total_set_of_get?_none k w rest h
      simp only [total, List.map_cons, List.sum_cons] at ih ⊢
      omega

theorem pos_set (k : K) (w : Nat) (hw : 1 ≤ w) :
    ∀ (m : GoMap K Nat), (∀ e ∈ m, 1 ≤ e.2) → ∀ e ∈ set m k w, 1 ≤ e.2
  | [], _, e, he => by
    simp only [set, List.mem_singleton] at he
    subst he
    exact hw
  | (k', v') :: rest, hm, e, he => by
    unfold set at he
    by_cases hk : k' = k
    · rw [if_pos hk, List.mem_cons] at he
      rcases he with rfl | he
      · exact hw
      · exact hm e (List.mem_cons_of_mem _ he)
    · rw [if_neg hk, List.mem_cons] at he
      rcases he with rfl | he
      · exact hm _ (List.mem_cons_self _ _)
      · exact pos_set k w hw rest (fun e he => hm e (List.mem_cons_of_mem _ he)) e he

end GoMap

namespace ios

theorem record_Total {X : Type} (c : core.Consts) (sr : core.Response X)
    (iosResp : push.Response) : (record c sr iosResp).Total = sr.Total + 1 := by
  unfold record
  rcases iosResp.Err with _ | x
  · rfl
  · dsimp only
    split <;> split <;> rfl

theorem record_counts {X : Type} (c : core.Consts) (sr : core.Response X)
    (iosResp : push.Response) :
    (record c sr iosResp).Success + (record c sr iosResp).Failure =
      sr.Success + sr.Failure + 1 := by
  unfold record
  rcases iosResp.Err with _ | x
  · dsimp only
    omega
  · dsimp only
    split <;> split <;> dsimp only <;> omega

theorem record_Failure {X : Type} (c : core.Consts) (sr : core.Response X)
    (iosResp : push.Response) :
    (record c sr iosResp).Failure =
      match iosResp.Err with
      | none => sr.Failure
      | some _ => sr.Failure + 1 := by
  unfold record
  rcases iosResp.Err with _ | x
  · rfl
  · dsimp only
    split <;> split <;> rfl

theorem record_ReasonMap {X : Type} (c : core.Consts) (sr : core.Response X)
    (iosResp : push.Response) :
    (record c sr iosResp).ReasonMap =
      match iosResp.Err with
      | none => sr.ReasonMap
      | some x =>
        match GoMap.get? sr.ReasonMap (classify x) with
        | some count => GoMap.set sr.ReasonMap (classify x) (count + 1)
        | none => GoMap.set sr.ReasonMap (classify x) 1 := by
  unfold record
  rcases iosResp.Err with _ | x
  · rfl
  · rcases x with r | v <;> dsimp only [classify] <;> split <;> split <;> simp_all

theorem record_Results {X : Type} (c : core.Consts) (sr : core.Response X)
    (iosResp : push.Response) :
    (record c sr iosResp).Results =
      match iosResp.Err with
      | some (.pushError r) =>
        if tokenInvalid r then
          sr.Results ++
            [{ Typ := c.ResponseTypeDeviceExpired, RegistrationID := iosResp.DeviceToken }]
        else sr.Results
      | _ => sr.Results := by
  unfold record
  rcases iosResp.Err with _ | x
  · rfl
  · rcases x with r | v <;> dsimp only [tokenInvalid] <;> split <;> split <;> simp_all

theorem record_Extra {X : Type} (c : core.Consts) (sr : core.Response X)
    (iosResp : push.Response) : (record c sr iosResp).Extra = sr.Extra := by
  unfold record
  rcases iosResp.Err with _ | x
  · rfl
  · dsimp only
    split <;> split <;> rfl

theorem record_hist {X : Type} (c : core.Consts) (sr : core.Response X)
    (iosResp : push.Response)
    (h : GoMap.total sr.ReasonMap = sr.Failure ∧ (∀ e ∈ sr.ReasonMap, 1 ≤ e.2) ∧
      sr.Results.length ≤ sr.Failure) :
    GoMap.total (record c sr iosResp).ReasonMap = (record c sr iosResp).Failure ∧
      (∀ e ∈ (record c sr iosResp).ReasonMap, 1 ≤ e.2) ∧
      (record c sr iosResp).Results.length ≤ (record c sr iosResp).Failure := by
  obtain ⟨h1, h2, h3⟩ := h
  rw [record_Failure, record_ReasonMap, record_Results]
  rcases iosResp.Err with _ | x
  · exact ⟨h1, h2, h3⟩
  · dsimp only
    refine ⟨?_, ?_, ?_⟩
    · cases hget : GoMap.get? sr.ReasonMap (classify x) with
      | none =>
        dsimp only
        rw [GoMap.total_set_of_get?_none _ _ _ hget, h1]
      | some count =>
        dsimp only
        have := GoMap.total_set_of_get?_some (classify x) (count + 1) _ count hget
        omega
    · cases hget : GoMap.get? sr.ReasonMap (classify x) with
      | none => exact GoMap.pos_set _ _ le_rfl _ h2
      | some count => exact GoMap.pos_set _ _ (Nat.succ_pos _) _ h2
    · rcases x with r | v
      · dsimp only
        split
        · rw [List.length_append, List.length_singleton]
          omega
        · omega
      · dsimp only
        omega

theorem recordAll_Total {X : Type} (c : core.Consts) :
    ∀ (os : List push.Response) (sr : core.Response X),
      (recordAll c sr os).Total = sr.Total + os.length
  | [], _ => rfl
  | iosResp :: rest, sr => by
    rw [recordAll, List.foldl_cons, ← recordAll, recordAll_Total c rest, record_Total,
      List.length_cons]
    omega

theorem recordAll_counts {X : Type} (c : core.Consts) :
    ∀ (os : List push.Response) (sr : core.Response X),
      (recordAll c sr os).Success + (recordAll c sr os).Failure =
        sr.Success + sr.Failure + os.length
  | [], _ => rfl
  | iosResp :: rest, sr => by
    rw [recordAll, List.foldl_cons, ← recordAll, recordAll_counts c rest, record_counts,
      List.length_cons]
    omega

theorem recordAll_hist {X : Type} (c : core.Consts) :
    ∀ (os : List push.Response) (sr : core.Response X),
      (GoMap.total sr.ReasonMap = sr.Failure ∧ (∀ e ∈ sr.ReasonMap, 1 ≤ e.2) ∧
        sr.Results.length ≤ sr.Failure) →
      GoMap.total (recordAll c sr os).ReasonMap = (recordAll c sr os).Failure ∧
        (∀ e ∈ (recordAll c sr os).ReasonMap, 1 ≤ e.2) ∧
        (recordAll c sr os).Results.length ≤ (recordAll c sr os).Failure
  | [], _, h => h
  | iosResp :: rest, sr, h => by
    rw [recordAll, List.foldl_cons, ← recordAll]
    exact recordAll_hist c rest _ (record_hist c sr iosResp h)

/-- The receive loop, in closed form: it publishes once the outcome number
`n - sr.Total` has been recorded, if there is such an outcome, and reads nothing after it;
otherwise it records every outcome and waits. -/
theorem receive_eq {X : Type} (c : core.Consts) (n : Nat) (queued : List message) :
    ∀ (os : List push.Response) (sr : core.Response X) (k : Nat),
      receive c n queued sr k os =
        if sr.Total < n ∧ n - sr.Total ≤ os.length then
          { queued := queued
            published := [recordAll c sr (os.take (n - sr.Total))]
            consumed := k + (n - sr.Total)
            sr := recordAll c sr (os.take (n - sr.Total))
            status := .returned }
        else
          { queued := queued, published := [], consumed := k + os.length,
            sr := recordAll c sr os, status := .waiting }
  | [], sr, k => by
    rw [if_neg]
    · rfl
    · rintro ⟨h1, h2⟩
      simp only [List.length_nil] at h2
      omega
  | iosResp :: rest, sr, k => by
    unfold receive
    dsimp only
    have hT := record_Total c sr iosResp
    by_cases hn : (record c sr iosResp).Total = n
    · rw [if_pos hn, if_pos ⟨by omega, by simp only [List.length_cons]; omega⟩]
      have h1 : n - sr.Total = 1 := by omega
      rw [h1]
      rfl
    · rw [if_neg hn, receive_eq c n queued rest]
      by_cases hc : sr.Total < n ∧ n - sr.Total ≤ (iosResp :: rest).length
      · obtain ⟨hc1, hc2⟩ := hc
        have hc3 : n - sr.Total ≤ rest.length + 1 := by
          simpa only [List.length_cons] using hc2
        rw [if_pos ⟨by omega, by omega⟩, if_pos ⟨hc1, hc2⟩]
        obtain ⟨d, hd⟩ : ∃ d, n - sr.Total = d + 1 := ⟨n - sr.Total - 1, by omega⟩
        have hd' : n - (record c sr iosResp).Total = d := by omega
        rw [hd, hd', List.take_succ_cons, show k + 1 + d = k + (d + 1) by omega]
        rfl
      · have hc' : ¬ ((record c sr iosResp).Total < n ∧
            n - (record c sr iosResp).Total ≤ rest.length) := by
          rintro ⟨h1, h2⟩
          apply hc
          simp only [List.length_cons]
          omega
        rw [if_neg hc', if_neg hc, List.length_cons,
          show k + 1 + rest.length = k + (rest.length + 1) by omega]
        rfl

theorem msgDistributor_eq {V X : Type} (c : core.Consts) (s : Service)
    (msg : core.Message V X) (now : Int) (respCh : Nat) (os : List push.Response)
    (hS : s.senderCount ≠ 0) :
    ∃ queued, msgDistributor c s msg now respCh os =
      receive c msg.Devices.length queued (newResponse msg.Extra) 0 os := by
  unfold msgDistributor groupSize
  rw [if_neg hS]
  exact ⟨_, rfl⟩

/-- Claim C2. After every outcome the aggregator of `msgDistributor` has consumed,
`Success + Failure == Total` and `Total` is the number of outcomes consumed; every result it
publishes has `Success + Failure == Total` and `Total == len(msg.Devices)`; and when the
request has at least one token and one outcome per token arrives, a result is published. -/
theorem C2_success_plus_failure_is_total {V X : Type} (c : core.Consts) (s : Service)
    (msg : core.Message V X) (now : Int) (respCh : Nat) (os : List push.Response) :
    ((msgDistributor c s msg now respCh os).sr.Success +
        (msgDistributor c s msg now respCh os).sr.Failure =
      (msgDistributor c s msg now respCh os).sr.Total ∧
      (msgDistributor c s msg now respCh os).sr.Total =
        (msgDistributor c s msg now respCh os).consumed) ∧
    (∀ p ∈ (msgDistributor c s msg now respCh os).published,
      p.Success + p.Failure = p.Total ∧ p.Total = msg.Devices.length) ∧
    (s.senderCount ≠ 0 → 1 ≤ msg.Devices.length → os.length = msg.Devices.length →
      ∃ p, (msgDistributor c s msg now respCh os).published = [p]) := by
  by_cases hS : s.senderCount = 0
  · have h : msgDistributor c s msg now respCh os =
        { queued := [], published := [], consumed := 0, sr := newResponse msg.Extra,
          status := .panicked } := by
      unfold msgDistributor groupSize
      rw [if_pos hS]
    rw [h]
    exact ⟨⟨rfl, rfl⟩, fun p hp => absurd hp (List.not_mem_nil p), fun h0 => absurd hS h0⟩
  · obtain ⟨queued, h⟩ := msgDistributor_eq c s msg now respCh os hS
    rw [h, receive_eq]
    have hc := fun l => recordAll_counts c l (newResponse msg.Extra)
    have ht := fun l => recordAll_Total c l (newResponse msg.Extra)
    simp only [newResponse, Nat.zero_add, Nat.add_zero] at hc ht
    simp only [newResponse, Nat.sub_zero, Nat.zero_add]
    split
    · rename_i hcond
      refine ⟨⟨?_, ?_⟩, ?_, fun _ _ _ => ⟨_, rfl⟩⟩
      · dsimp only
        rw [hc, ht]
      · dsimp only
        rw [ht, List.length_take, Nat.min_eq_left hcond.2]
      · intro p hp
        rw [List.mem_singleton] at hp
        subst hp
        rw [hc, ht, List.length_take, Nat.min_eq_left hcond.2]
        exact ⟨rfl, rfl⟩
    · rename_i hcond
      refine ⟨⟨?_, ?_⟩, fun p hp => absurd hp (List.not_mem_nil p), ?_⟩
      · dsimp only
        rw [hc, ht]
      · dsimp only
        rw [ht]
      · intro _ hN hlen
        exact absurd ⟨by omega, by omega⟩ hcond

/-- Claim C2 on a request with 3 tokens and one outcome for each of them. -/
theorem C2_success_plus_failure_is_total_witness :
    ∃ p, (msgDistributor sampleConsts pool2 (request ["a", "b", "c"]) 0 1
      [⟨"a", "", none⟩, ⟨"b", "", some (.pushError .ErrUnregistered)⟩,
        ⟨"c", "", none⟩]).published = [p] :=
  (C2_success_plus_failure_is_total sampleConsts pool2 (request ["a", "b", "c"]) 0 1
    [⟨"a", "", none⟩, ⟨"b", "", some (.pushError .ErrUnregistered)⟩, ⟨"c", "", none⟩]).2.2
    (by decide) (by decide) (by decide)

/-- Claim C3. For a request with `N >= 1` tokens whose aggregator loop is reached
(`senderCount` is not zero) and any sequence of outcomes arriving on its channel: with fewer
than `N` outcomes nothing is published and the aggregator waits, having read them all; with
`N` outcomes or more exactly one result is published, the accumulator after the first `N`
outcomes, the aggregator has returned and has read `N` outcomes and no more; and after any
prefix of fewer than `N` outcomes nothing has been published. -/
theorem C3_published_once_at_last_outcome {V X : Type} (c : core.Consts) (s : Service)
    (msg : core.Message V X) (now : Int) (respCh : Nat) (os : List push.Response)
    (hS : s.senderCount ≠ 0) (hN : 1 ≤ msg.Devices.length) :
    (os.length < msg.Devices.length →
      (msgDistributor c s msg now respCh os).published = [] ∧
      (msgDistributor c s msg now respCh os).consumed = os.length ∧
      (msgDistributor c s msg now respCh os).status = .waiting) ∧
    (msg.Devices.length ≤ os.length →
      (msgDistributor c s msg now respCh os).published =
        [recordAll c (newResponse msg.Extra) (os.take msg.Devices.length)] ∧
      (msgDistributor c s msg now respCh os).consumed = msg.Devices.length ∧
      (msgDistributor c s msg now respCh os).status = .returned) ∧
    (∀ k, k < msg.Devices.length →
      (msgDistributor c s msg now respCh (os.take k)).published = []) := by
  have key : ∀ l : List push.Response, msgDistributor c s msg now respCh l =
      if msg.Devices.length ≤ l.length then
        { queued := (msgDistributor c s msg now respCh l).queued
          published := [recordAll c (newResponse msg.Extra) (l.take msg.Devices.length)]
          consumed := msg.Devices.length
          sr := recordAll c (newResponse msg.Extra) (l.take msg.Devices.length)
          status := .returned }
      else
        { queued := (msgDistributor c s msg now respCh l).queued
          published := [], consumed := l.length,
          sr := recordAll c (newResponse msg.Extra) l, status := .waiting } := by
    intro l
    obtain ⟨queued, h⟩ := msgDistributor_eq c s msg now respCh l hS
    rw [h, receive_queued, receive_eq]
    simp only [newResponse, Nat.sub_zero, Nat.zero_add]
    by_cases hl : msg.Devices.length ≤ l.length
    · rw [if_pos ⟨by omega, hl⟩, if_pos hl]
    · rw [if_neg (fun hc => hl hc.2), if_neg hl]
  refine ⟨?_, ?_, ?_⟩
  · intro h
    rw [key os, if_neg (by omega)]
    exact ⟨rfl, rfl, rfl⟩
  · intro h
    rw [key os, if_pos h]
    exact ⟨rfl, rfl, rfl⟩
  · intro k hk
    have hlen : ¬ msg.Devices.length ≤ (os.take k).length := by
      rw [List.length_take]
      omega
    rw [key (os.take k), if_neg hlen]

/-- Claim C3 on a request with 2 tokens and 3 outcomes: the result is published after the
second outcome and the third one is not read. -/
theorem C3_published_once_at_last_outcome_witness :
    (pool2.senderCount ≠ 0 ∧ 1 ≤ (request ["a", "b"]).Devices.length) ∧
    (msgDistributor sampleConsts pool2 (request ["a", "b"]) 0 1
      [⟨"a", "", none⟩, ⟨"b", "", none⟩, ⟨"c", "", none⟩]).consumed = 2 ∧
    (msgDistributor sampleConsts pool2 (request ["a", "b"]) 0 1
      [⟨"a", "", none⟩, ⟨"b", "", none⟩, ⟨"c", "", none⟩]).published =
      [{ Extra := 7, ReasonMap := [], Total := 2, Success := 2, Failure := 0, Results := [] }] ∧
    (msgDistributor sampleConsts pool2 (request ["a", "b"]) 0 1
      ([⟨"a", "", none⟩, ⟨"b", "", none⟩, ⟨"c", "", none⟩].take 1)).published = [] :=
  ⟨⟨by decide, by decide⟩,
    ((C3_published_once_at_last_outcome sampleConsts pool2 (request ["a", "b"]) 0 1
      [⟨"a", "", none⟩, ⟨"b", "", none⟩, ⟨"c", "", none⟩] (by decide) (by decide)).2.1
      (by decide)).2.1,
    by decide,
    (C3_published_once_at_last_outcome sampleConsts pool2 (request ["a", "b"]) 0 1
      [⟨"a", "", none⟩, ⟨"b", "", none⟩, ⟨"c", "", none⟩] (by decide) (by decide)).2.2 1
      (by decide)⟩

theorem msgDistributor_sr {V X : Type} (c : core.Consts) (s : Service)
    (msg : core.Message V X) (now : Int) (respCh : Nat) (os : List push.Response) :
    (∃ l, (msgDistributor c s msg now respCh os).sr = recordAll c (newResponse msg.Extra) l) ∧
    ∀ p ∈ (msgDistributor c s msg now respCh os).published,
      ∃ l, p = recordAll c (newResponse msg.Extra) l := by
  by_cases hS : s.senderCount = 0
  · have h : msgDistributor c s msg now respCh os =
        { queued := [], published := [], consumed := 0, sr := newResponse msg.Extra,
          status := .panicked } := by
      unfold msgDistributor groupSize
      rw [if_pos hS]
    rw [h]
    exact ⟨⟨[], rfl⟩, fun p hp => absurd hp (List.not_mem_nil p)⟩
  · obtain ⟨queued, h⟩ := msgDistributor_eq c s msg now respCh os hS
    rw [h, receive_eq]
    split
    · refine ⟨⟨_, rfl⟩, fun p hp => ?_⟩
      rw [List.mem_singleton] at hp
      exact ⟨_, hp⟩
    · exact ⟨⟨_, rfl⟩, fun p hp => absurd hp (List.not_mem_nil p)⟩

/-- Claim C5. After every outcome the aggregator of `msgDistributor` has consumed, and in
every result it publishes, the counts of `ReasonMap` add up to `Failure`, every key of
`ReasonMap` has a count of at least 1, and `Results` is no longer than `Failure`. -/
theorem C5_histogram_sums_to_failure {V X : Type} (c : core.Consts) (s : Service)
    (msg : core.Message V X) (now : Int) (respCh : Nat) (os : List push.Response) :
    (GoMap.total (msgDistributor c s msg now respCh os).sr.ReasonMap =
        (msgDistributor c s msg now respCh os).sr.Failure ∧
      (∀ e ∈ (msgDistributor c s msg now respCh os).sr.ReasonMap, 1 ≤ e.2) ∧
      (msgDistributor c s msg now respCh os).sr.Results.length ≤
        (msgDistributor c s msg now respCh os).sr.Failure) ∧
    ∀ p ∈ (msgDistributor c s msg now respCh os).published,
      GoMap.total p.ReasonMap = p.Failure ∧ (∀ e ∈ p.ReasonMap, 1 ≤ e.2) ∧
        p.Results.length ≤ p.Failure := by
  have h0 : GoMap.total (newResponse msg.Extra).ReasonMap = (newResponse msg.Extra).Failure ∧
      (∀ e ∈ (newResponse msg.Extra).ReasonMap, 1 ≤ e.2) ∧
      (newResponse msg.Extra).Results.length ≤ (newResponse msg.Extra).Failure :=
    ⟨rfl, fun e he => absurd he (List.not_mem_nil e), le_rfl⟩
  obtain ⟨⟨l, hl⟩, hp⟩ := msgDistributor_sr c s msg now respCh os
  refine ⟨?_, fun p hmem => ?_⟩
  · rw [hl]
    exact recordAll_hist c l _ h0
  · obtain ⟨l', hl'⟩ := hp p hmem
    rw [hl']
    exact recordAll_hist c l' _ h0

/-- Claim C5 on a request with 3 tokens, two of whose outcomes fail. -/
theorem C5_histogram_sums_to_failure_witness :
    GoMap.total (msgDistributor sampleConsts pool2 (request ["a", "b", "c"]) 0 1
        [⟨"a", "", some (.plain (.other 4))⟩, ⟨"b", "", some (.pushError .ErrUnregistered)⟩,
          ⟨"c", "", none⟩]).sr.ReasonMap =
      (msgDistributor sampleConsts pool2 (request ["a", "b", "c"]) 0 1
        [⟨"a", "", some (.plain (.other 4))⟩, ⟨"b", "", some (.pushError .ErrUnregistered)⟩,
          ⟨"c", "", none⟩]).sr.Failure ∧
    (msgDistributor sampleConsts pool2 (request ["a", "b", "c"]) 0 1
        [⟨"a", "", some (.plain (.other 4))⟩, ⟨"b", "", some (.pushError .ErrUnregistered)⟩,
          ⟨"c", "", none⟩]).sr.Failure = 2 :=
  ⟨(C5_histogram_sums_to_failure sampleConsts pool2 (request ["a", "b", "c"]) 0 1
      [⟨"a", "", some (.plain (.other 4))⟩, ⟨"b", "", some (.pushError .ErrUnregistered)⟩,
        ⟨"c", "", none⟩]).1.1,
    by decide⟩

/-- Claim C8. A request whose device list is empty, or whose payload `json.Marshal` cannot
encode, puts no work unit on the message queue and publishes no result, whatever outcomes
are fed to it (with no work unit queued, no sender produces any). -/
theorem C8_invalid_request_yields_nothing {V X : Type} (enc : Encoder V) (c : core.Consts)
    (s : Service) (msg : core.Message V X) (now : Int) (respCh : Nat)
    (os : List push.Response)
    (h : msg.Devices = [] ∨ enc.jsonMarshal (payloadMap enc msg) = none) :
    (Queue enc c s msg now respCh os).queued = [] ∧
      (Queue enc c s msg now respCh os).published = [] := by
  unfold Queue
  cases hm : enc.jsonMarshal (payloadMap enc msg) with
  | none => exact ⟨rfl, rfl⟩
  | some b =>
    have hd : msg.Devices = [] := by
      rcases h with h | h
      · exact h
      · rw [hm] at h
        exact Option.noConfusion h
    dsimp only
    unfold msgDistributor groupSize
    dsimp only
    by_cases hS : s.senderCount = 0
    · rw [if_pos hS]
      exact ⟨rfl, rfl⟩
    · rw [if_neg hS]
      dsimp only
      rw [receive_queued, receive_eq, if_neg, hd]
      · refine ⟨?_, rfl⟩
        simp [core.DeviceList.Group, core.groupAux, workUnits]
      · rintro ⟨h1, -⟩
        rw [hd] at h1
        exact Nat.not_lt_zero _ h1

/-- Claim C8 on a request without device tokens and on a request whose payload cannot be
encoded. -/
theorem C8_invalid_request_yields_nothing_witness :
    ((request []).Devices = [] ∧
      (Queue sampleEncoder sampleConsts pool2 (request []) 0 1
        [⟨"a", "", none⟩]).queued = [] ∧
      (Queue sampleEncoder sampleConsts pool2 (request []) 0 1
        [⟨"a", "", none⟩]).published = []) ∧
    (sampleEncoder.jsonMarshal
        (payloadMap sampleEncoder { request ["a"] with Custom := [("k", 0)] }) = none ∧
      (Queue sampleEncoder sampleConsts pool2 { request ["a"] with Custom := [("k", 0)] } 0 1
        [⟨"a", "", none⟩]).queued = [] ∧
      (Queue sampleEncoder sampleConsts pool2 { request ["a"] with Custom := [("k", 0)] } 0 1
        [⟨"a", "", none⟩]).published = []) :=
  ⟨⟨rfl, C8_invalid_request_yields_nothing sampleEncoder sampleConsts pool2 (request []) 0 1
      [⟨"a", "", none⟩] (Or.inl rfl)⟩,
    ⟨by decide, C8_invalid_request_yields_nothing sampleEncoder sampleConsts pool2
      { request ["a"] with Custom := [("k", 0)] } 0 1 [⟨"a", "", none⟩] (Or.inr (by decide))⟩⟩

/-- The invalid-token list holds the tokens of the outcomes, in arrival order, whose error
is a `*push.Error` with one of the two token-no-longer-valid reasons, and no other token. -/
theorem recordAll_Results {X : Type} (c : core.Consts) :
    ∀ (os : List push.Response) (sr : core.Response X),
      (recordAll c sr os).Results = sr.Results ++ os.filterMap (fun o =>
        match o.Err with
        | some (.pushError r) =>
          if tokenInvalid r then
            some { Typ := c.ResponseTypeDeviceExpired, RegistrationID := o.DeviceToken }
          else none
        | _ => none)
  | [], sr => by simp [recordAll]
  | o :: rest, sr => by
    rw [recordAll, List.foldl_cons, ← recordAll, recordAll_Results c rest, record_Results]
    rcases o with ⟨tok, id, _ | ⟨r⟩ | ⟨v⟩⟩
    · simp
    · by_cases hr : tokenInvalid r <;> simp [hr]
    · simp

/-- Claim C4, on the code. A request to the token "t" whose outcome fails with the value
`push.ErrUnregistered` itself: the reason is counted under that key in `ReasonMap`, but the
token is not put on `Results`; had the same reason arrived in a `*push.Error`, the token
would be there. For 3 tokens, one outcome with a `*push.Error` of reason Unregistered and
two successes, the published result is as the claim says. -/
theorem C4_bare_reason_token_not_listed :
    (msgDistributor sampleConsts pool2 (request ["t"]) 0 1
        [⟨"t", "", some (.plain .ErrUnregistered)⟩]).published =
      [{ Extra := 7, ReasonMap := [(.ErrUnregistered, 1)], Total := 1, Success := 0,
         Failure := 1, Results := [] }] ∧
    (msgDistributor sampleConsts pool2 (request ["t"]) 0 1
        [⟨"t", "", some (.pushError .ErrUnregistered)⟩]).published =
      [{ Extra := 7, ReasonMap := [(.ErrUnregistered, 1)], Total := 1, Success := 0,
         Failure := 1, Results := [{ Typ := 1, RegistrationID := "t" }] }] ∧
    (msgDistributor sampleConsts pool2 (request ["a", "b", "c"]) 0 1
        [⟨"a", "", none⟩, ⟨"b", "", some (.pushError .ErrUnregistered)⟩,
          ⟨"c", "", none⟩]).published =
      [{ Extra := 7, ReasonMap := [(.ErrUnregistered, 1)], Total := 3, Success := 2,
         Failure := 1, Results := [{ Typ := 1, RegistrationID := "b" }] }] := by
  decide

end ios

/-! ## The android service -/

namespace android

theorem sender_drain {α R E P : Type} (cl : Client α R E P) (s : Service) :
    ∀ (queue : List Nat) (w : World α E P), w.msgQueue = queue →
      (sender cl s queue.length w).msgQueue = [] ∧
      (sender cl s queue.length w).sends =
        w.sends ++ queue.map (fun msg => (msg, s.retryCount)) ∧
      (sender cl s queue.length w).respCh.length + (sender cl s queue.length w).logged.length =
        w.respCh.length + w.logged.length + queue.length
  | [], w, h => ⟨h, by simp [sender], rfl⟩
  | msg :: queue, w, h => by
    have hq : (senderStep cl s w).msgQueue = queue := by
      unfold senderStep
      rw [h]
      dsimp only
      split <;> rfl
    have hs : (senderStep cl s w).sends = w.sends ++ [(msg, s.retryCount)] := by
      unfold senderStep
      rw [h]
      dsimp only
      split <;> rfl
    have hl : (senderStep cl s w).respCh.length + (senderStep cl s w).logged.length =
        w.respCh.length + w.logged.length + 1 := by
      unfold senderStep
      rw [h]
      dsimp only
      split <;> simp only [List.length_append, List.length_singleton] <;> omega
    obtain ⟨h1, h2, h3⟩ := sender_drain cl s queue (senderStep cl s w) hq
    rw [List.length_cons, sender]
    refine ⟨h1, ?_, ?_⟩
    · rw [h2, hs, List.map_cons, List.append_assoc]
      rfl
    · rw [h3, hl]
      omega

/-- Claim C9. When a worker takes the message `msg` from the queue it calls
`gcmClient.Send` once, on that message and with the configured `retryCount`; if the call
returns a response, exactly one value, made from that response and that message, is put on
the result sink and nothing is logged; if it returns an error, the error is logged and
nothing is put on the sink; so one value is added to the sink if and only if the send
returned no error. Either way the message is gone from the queue and no message is changed,
and a worker that goes through a whole queue makes one call per message, in order. -/
theorem C9_one_send_and_response_iff_no_error {α R E P : Type} (cl : Client α R E P)
    (s : Service) (w : World α E P) (msg : Nat) (queue : List Nat)
    (hq : w.msgQueue = msg :: queue) :
    (senderStep cl s w).sends = w.sends ++ [(msg, s.retryCount)] ∧
    (senderStep cl s w).msgQueue = queue ∧
    (senderStep cl s w).heap = w.heap ∧
    (∀ resp, cl.Send w.sends.length (w.heap msg) s.retryCount = .ok resp →
      (senderStep cl s w).respCh = w.respCh ++ [cl.NewServiceResponse resp (w.heap msg)] ∧
      (senderStep cl s w).logged = w.logged) ∧
    (∀ err, cl.Send w.sends.length (w.heap msg) s.retryCount = .error err →
      (senderStep cl s w).respCh = w.respCh ∧
      (senderStep cl s w).logged = w.logged ++ [err]) ∧
    ((∃ x, (senderStep cl s w).respCh = w.respCh ++ [x]) ↔
      ∃ resp, cl.Send w.sends.length (w.heap msg) s.retryCount = .ok resp) ∧
    (sender cl s w.msgQueue.length w).msgQueue = [] ∧
    (sender cl s w.msgQueue.length w).sends =
      w.sends ++ w.msgQueue.map (fun m => (m, s.retryCount)) := by
  have hd := sender_drain cl s w.msgQueue w rfl
  refine ⟨?_, ?_, ?_, ?_, ?_, ?_, hd.1, hd.2.1⟩
  all_goals
    unfold senderStep
    rw [hq]
    dsimp only
  · split <;> rfl
  · split <;> rfl
  · split <;> rfl
  · intro resp hr
    rw [hr]
    exact ⟨rfl, rfl⟩
  · intro err hr
    rw [hr]
    exact ⟨rfl, rfl⟩
  · cases hr : cl.Send w.sends.length (w.heap msg) s.retryCount with
    | error err =>
      dsimp only
      constructor
      · rintro ⟨x, hx⟩
        have := congrArg List.length hx
        simp at this
      · rintro ⟨resp, hresp⟩
        exact Except.noConfusion hresp
    | ok resp =>
      dsimp only
      exact ⟨fun _ => ⟨resp, rfl⟩, fun _ => ⟨_, rfl⟩⟩

/-- Claim C9 on a queue of two messages: the first send fails, the second one succeeds. -/
theorem C9_one_send_and_response_iff_no_error_witness :
    sampleWorld.msgQueue = [0, 1] ∧
    (senderStep sampleClient sandbox sampleWorld).sends = [(0, 3)] ∧
    (senderStep sampleClient sandbox sampleWorld).respCh = [] ∧
    (senderStep sampleClient sandbox (senderStep sampleClient sandbox sampleWorld)).respCh =
      [(101, true)] ∧
    (sender sampleClient sandbox sampleWorld.msgQueue.length sampleWorld).sends =
      sampleWorld.sends ++ sampleWorld.msgQueue.map (fun m => (m, sandbox.retryCount)) :=
  ⟨rfl, (C9_one_send_and_response_iff_no_error sampleClient sandbox sampleWorld 0 [1] rfl).1,
    by decide, by decide,
    (C9_one_send_and_response_iff_no_error sampleClient sandbox sampleWorld 0 [1] rfl).2.2.2.2.2.2.2⟩

/-- Claim C10. `Queue` sets `DryRun` of the message to the negation of `isProduction`,
whatever it was, leaves the other fields of the message and every other message as they
were, puts that message on the queue once, at the end, touches nothing else, and a second
call with the same service leaves the message as the first call left it. -/
theorem C10_queue_overwrites_dry_run {α E P : Type} (s : Service) (msg : Nat)
    (w : World α E P) :
    ((Queue s msg w).heap msg).DryRun = !s.isProduction ∧
    ((Queue s msg w).heap msg).rest = (w.heap msg).rest ∧
    (∀ a, a ≠ msg → (Queue s msg w).heap a = w.heap a) ∧
    (Queue s msg w).msgQueue = w.msgQueue ++ [msg] ∧
    (Queue s msg w).respCh = w.respCh ∧
    (Queue s msg w).sends = w.sends ∧
    (Queue s msg w).logged = w.logged ∧
    (Queue s msg (Queue s msg w)).heap msg = (Queue s msg w).heap msg := by
  unfold Queue
  dsimp only
  refine ⟨?_, ?_, ?_, rfl, rfl, rfl, rfl, ?_⟩
  · rw [if_pos rfl]
    cases s.isProduction <;> rfl
  · rw [if_pos rfl]
    cases s.isProduction <;> rfl
  · intro a ha
    rw [if_neg ha]
  · simp only [if_true]
    cases s.isProduction <;> rfl

/-- Claim C10 on a sandbox service and a message whose `DryRun` was set. -/
theorem C10_queue_overwrites_dry_run_witness :
    ((Queue sandbox 0 sampleWorld).heap 0).DryRun = true ∧
    ((Queue sandbox 0 sampleWorld).heap 0).DryRun = !sandbox.isProduction ∧
    (Queue sandbox 0 sampleWorld).heap 1 = sampleWorld.heap 1 ∧
    (Queue sandbox 0 sampleWorld).msgQueue = [0, 1, 0] :=
  ⟨by decide, (C10_queue_overwrites_dry_run sandbox 0 sampleWorld).1,
    (C10_queue_overwrites_dry_run sandbox 0 sampleWorld).2.2.1 1 (by decide), by decide⟩

end android
